import Mathlib

/-!
# Verification of the Yad2 rental-listing acquisition pipeline

Shallow embedding of `src/server/src/scrapers/yad2.ts`, which contains two
variants of the scraper: a Puppeteer/browser variant (namespace `Browser`
below) and a direct-HTTP/axios variant (namespace `Direct`).  Supporting
types come from `db/database.ts` (the `Listing` interface) and
`services/geocoding.ts` (the `geocodeAddress` collaborator).

Modelling conventions:
* JavaScript `number` fields are modelled as `Rat` (sign and zero tests, the
  only aspects the code inspects, behave identically), except house numbers,
  modelled as `Int` because the code stringifies them with `String(...)` and
  only integral house numbers occur.
* Optional / possibly-`undefined` fields are `Option _`; JavaScript
  truthiness tests (`if (x)`, `!x`, `x || y`) are made explicit through the
  `truthy*` helpers (`none`, `some ""`, `some 0` are falsy).
* Throwing code is modelled with `Except Unit _`; a `try`/`catch` is a
  `match` on that `Except`.
-/

/-- JS truthiness of an optional string: `undefined` and `""` are falsy. -/
def truthyS : Option String → Bool
  | none => false
  | some s => s ≠ ""

/-- JS truthiness of an optional number: `undefined` and `0` are falsy. -/
def truthyQ : Option Rat → Bool
  | none => false
  | some q => q ≠ 0

/-- JS truthiness of an optional integer: `undefined` and `0` are falsy. -/
def truthyI : Option Int → Bool
  | none => false
  | some n => n ≠ 0

/-- JS `a || b` on optional strings (falsy: `undefined`, `""`). -/
def jsOrS (a b : Option String) : Option String :=
  if truthyS a then a else b

/-- JS string interpolation of a possibly-`undefined` value:
`` `${x}` `` prints the literal text `undefined` when `x` is `undefined`. -/
def interpTok : Option String → String
  | none => "undefined"
  | some s => s

-- ── Yad2 data interfaces (from __NEXT_DATA__) ──

/-- `house?: { number?: number; floor?: number }` -/
structure Yad2House where
  number : Option Int := none
  floor : Option Rat := none
deriving Repr, DecidableEq

/-- `coords?: { lat: number; lon: number }` -/
structure Yad2Coords where
  lat : Rat
  lon : Rat
deriving Repr, DecidableEq

/-- `Yad2Address`; the `{ text: string }` wrappers are flattened to the
string they carry (the code only ever reads `.text`). -/
structure Yad2Address where
  region : Option String := none
  city : Option String := none
  area : Option String := none
  neighborhood : Option String := none
  street : Option String := none
  house : Option Yad2House := none
  coords : Option Yad2Coords := none
deriving Repr, DecidableEq

/-- `additionalDetails?: { property?: {text}; roomsCount?; squareMeter? }` -/
structure Yad2AdditionalDetails where
  property : Option String := none
  roomsCount : Option Rat := none
  squareMeter : Option Rat := none
deriving Repr, DecidableEq

/-- `metaData?: { coverImage?: string; images?: string[] }` -/
structure Yad2MetaData where
  coverImage : Option String := none
  images : Option (List String) := none
deriving Repr, DecidableEq

/-- A raw feed item.  `token` is declared `string` in TypeScript but the
runtime JSON may omit it (the scraper guards with `!item.token`), hence
`Option String`; likewise `address` may be absent (`item.address || {}`). -/
structure Yad2FeedItem where
  address : Option Yad2Address := none
  adType : Option String := none
  price : Option Rat := none
  token : Option String := none
  additionalDetails : Option Yad2AdditionalDetails := none
  metaData : Option Yad2MetaData := none
  /-- `tags?: { name: string }[]`, flattened to the names: the code only
  ever reads `t.name`. -/
  tags : Option (List String) := none
deriving Repr, DecidableEq

/-- `pagination?: { total: number; totalPages: number }` -/
structure Yad2Pagination where
  total : Rat
  totalPages : Rat
deriving Repr, DecidableEq

/-- One page's feed, bucketed by category.  A bucket that is absent (or not
an array) is `none`; the scraper skips it (`if (!Array.isArray(items))
continue`).  The source field `private` is a Lean keyword and is rendered
`priv`. -/
structure Yad2FeedData where
  priv : Option (List Yad2FeedItem) := none
  agency : Option (List Yad2FeedItem) := none
  yad1 : Option (List Yad2FeedItem) := none
  platinum : Option (List Yad2FeedItem) := none
  kingOfTheHar : Option (List Yad2FeedItem) := none
  trio : Option (List Yad2FeedItem) := none
  booster : Option (List Yad2FeedItem) := none
  leadingBroker : Option (List Yad2FeedItem) := none
  pagination : Option Yad2Pagination := none
deriving Repr, DecidableEq

/-- The canonical listing record (`Listing` in `db/database.ts`).  Fields
the scraper never sets (`contact_name`, `contact_phone`, dates,
`is_active`) are carried as optional fields left `none`. -/
structure Listing where
  id : String
  source : String
  source_id : Option String := none
  title : Option String := none
  address : String
  street : Option String := none
  neighborhood : Option String := none
  city : Option String := none
  price : Rat
  rooms : Rat
  floor : Option Rat := none
  size_sqm : Option Rat := none
  contact_name : Option String := none
  contact_phone : Option String := none
  contact_info : String
  description : Option String := none
  image_url : Option String := none
  source_url : Option String := none
  lat : Option Rat := none
  lng : Option Rat := none
deriving Repr, DecidableEq

-- ── Conversion helpers ──

/-- The empty object `{}` used by `item.address || {}`. -/
def emptyAddress : Yad2Address := {}

/-- `buildAddress` (identical in both scraper variants): pushes, in order,
street text, house number, neighborhood text, city text — each only when
truthy — and joins with `", "`. -/
def buildAddress (addr : Yad2Address) : String :=
  let parts : List String := []
  let parts := if truthyS addr.street then parts ++ [addr.street.getD ""] else parts
  let parts := if truthyI (addr.house.bind Yad2House.number) then
    parts ++ [toString ((addr.house.bind Yad2House.number).getD 0)] else parts
  let parts := if truthyS addr.neighborhood then
    parts ++ [addr.neighborhood.getD ""] else parts
  let parts := if truthyS addr.city then parts ++ [addr.city.getD ""] else parts
  String.intercalate ", " parts

/-- `item.metaData?.coverImage || item.metaData?.images?.[0]` (browser) and
`item.metaData?.coverImage || (item.metaData?.images && images[0])`
(direct) evaluate to the same optional string. -/
def derivedImageUrl (item : Yad2FeedItem) : Option String :=
  jsOrS (item.metaData.bind Yad2MetaData.coverImage)
    ((item.metaData.bind Yad2MetaData.images).bind List.head?)

/-- `const propertyType = item.additionalDetails?.property?.text || ''` -/
def derivedPropertyType (item : Yad2FeedItem) : String :=
  (jsOrS (item.additionalDetails.bind Yad2AdditionalDetails.property) (some "")).getD ""

/-- `const tags = (item.tags || []).map((t) => t.name).join(', ')` -/
def derivedTags (item : Yad2FeedItem) : String :=
  String.intercalate ", " (item.tags.getD [])

/-- `[propertyType, tags].filter(Boolean).join(' | ') || undefined` -/
def derivedDescription (item : Yad2FeedItem) : Option String :=
  let joined := String.intercalate " | "
    (([derivedPropertyType item, derivedTags item]).filter (· ≠ ""))
  if joined ≠ "" then some joined else none

/-- `` `${propertyType || 'דירה'} - ${addr.street?.text ||
addr.neighborhood?.text || address}` `` -/
def derivedTitle (item : Yad2FeedItem) (addr : Yad2Address) (address : String) : String :=
  (jsOrS (some (derivedPropertyType item)) (some "דירה")).getD "" ++ " - " ++
    (jsOrS addr.street (jsOrS addr.neighborhood (some address))).getD ""

/-- `!price || price <= 0` over `price?: number`. -/
def priceInvalid : Option Rat → Bool
  | none => true
  | some p => p ≤ 0

/-- `!rooms || rooms <= 0` over `roomsCount?: number`. -/
def roomsInvalid : Option Rat → Bool
  | none => true
  | some r => r ≤ 0

namespace Browser

/-- The listing object literal returned by the browser variant's
`feedItemToListing` (`yad2.ts` lines 114–133); a missing/zero rooms count
is defaulted to `0` by `rooms: rooms || 0`. -/
def listingOf (item : Yad2FeedItem) : Listing :=
  let addr := item.address.getD emptyAddress
  let address := buildAddress addr
  let price := item.price
  let rooms := (item.additionalDetails.bind Yad2AdditionalDetails.roomsCount)
  {
      id := "yad2_" ++ interpTok item.token
      source := "yad2"
      source_id := item.token
      title := some (derivedTitle item addr address)
      address := address
      street := if truthyS addr.street then addr.street else none
      neighborhood := if truthyS addr.neighborhood then addr.neighborhood else none
      city := some ((jsOrS addr.city (some "ירושלים")).getD "")
      price := price.getD 0
      rooms := if truthyQ rooms then rooms.getD 0 else 0
      floor := (addr.house).bind Yad2House.floor
      size_sqm := item.additionalDetails.bind Yad2AdditionalDetails.squareMeter
      contact_info := "https://www.yad2.co.il/item/" ++ interpTok item.token
      description := derivedDescription item
      image_url := if truthyS (derivedImageUrl item) then derivedImageUrl item else none
      source_url := some ("https://www.yad2.co.il/item/" ++ interpTok item.token)
      lat := if truthyQ ((addr.coords).map Yad2Coords.lat) then (addr.coords).map Yad2Coords.lat else none
      lng := if truthyQ ((addr.coords).map Yad2Coords.lon) then (addr.coords).map Yad2Coords.lon else none
    }

/-- `feedItemToListing` of the Puppeteer/browser variant
(`yad2.ts` lines 99–134): rejects only on empty address or invalid price
(`if (!address || !price || price <= 0) return null`). -/
def feedItemToListing (item : Yad2FeedItem) : Option Listing :=
  if buildAddress (item.address.getD emptyAddress) = "" ∨ priceInvalid item.price then
    none
  else some (listingOf item)

end Browser

namespace Direct

/-- The listing object literal returned by the direct variant's
`feedItemToListing` (`yad2.ts` lines 402–421). -/
def listingOf (item : Yad2FeedItem) : Listing :=
  let addr := item.address.getD emptyAddress
  let address := buildAddress addr
  let price := item.price
  let rooms := (item.additionalDetails.bind Yad2AdditionalDetails.roomsCount)
  {
      id := "yad2_" ++ interpTok item.token
      source := "yad2"
      source_id := item.token
      title := some (derivedTitle item addr address)
      address := address
      street := if truthyS addr.street then addr.street else none
      neighborhood := if truthyS addr.neighborhood then addr.neighborhood else none
      city := some ((jsOrS addr.city (some "ירושלים")).getD "")
      price := price.getD 0
      rooms := rooms.getD 0
      floor := (addr.house).bind Yad2House.floor
      size_sqm := item.additionalDetails.bind Yad2AdditionalDetails.squareMeter
      contact_info := "yad2.co.il/item/" ++ interpTok item.token
      description := derivedDescription item
      image_url := if truthyS (derivedImageUrl item) then derivedImageUrl item else none
      source_url := some ("https://www.yad2.co.il/item/" ++ interpTok item.token)
      lat := if truthyQ ((addr.coords).map Yad2Coords.lat) then (addr.coords).map Yad2Coords.lat else none
      lng := if truthyQ ((addr.coords).map Yad2Coords.lon) then (addr.coords).map Yad2Coords.lon else none
    }

/-- `feedItemToListing` of the direct-HTTP/axios variant
(`yad2.ts` lines 386–422): additionally requires a truthy, positive rooms
count (`if (!address || !price || price <= 0 || !rooms || rooms <= 0)
return null`). -/
def feedItemToListing (item : Yad2FeedItem) : Option Listing :=
  if buildAddress (item.address.getD emptyAddress) = "" ∨ priceInvalid item.price ∨
      roomsInvalid (item.additionalDetails.bind Yad2AdditionalDetails.roomsCount) then
    none
  else some (listingOf item)

end Direct

-- ── Orchestrator: deduplication loop, page loop, geocoding pass ──

/-- Run-scoped mutable state of `scrapeYad2`: `allListings` accumulator and
`seenTokens` set (modelled as the list of inserted tokens). -/
structure ScrapeState where
  seen : List String := []
  listings : List Listing := []
deriving Repr, DecidableEq

/-- One iteration of the inner item loop (identical in both variants):
`if (!item.token || seenTokens.has(item.token)) continue;
seenTokens.add(item.token); const listing = feedItemToListing(item);
if (listing) allListings.push(listing);`. -/
def processItem (norm : Yad2FeedItem → Option Listing) (st : ScrapeState)
    (item : Yad2FeedItem) : ScrapeState :=
  match item.token with
  | none => st
  | some tok =>
    if tok = "" then st
    else if st.seen.contains tok then st
    else
      match norm item with
      | some l => { seen := tok :: st.seen, listings := st.listings ++ [l] }
      | none => { st with seen := tok :: st.seen }

/-- The item loop over one bucket. -/
def processItems (norm : Yad2FeedItem → Option Listing) (st : ScrapeState)
    (items : List Yad2FeedItem) : ScrapeState :=
  items.foldl (processItem norm) st

/-- The fixed category iteration order, identical in both variants:
`['private','agency','yad1','platinum','trio','booster','leadingBroker',
'kingOfTheHar']`, each bucket `none` when absent/not an array. -/
def bucketsOf (f : Yad2FeedData) : List (Option (List Yad2FeedItem)) :=
  [f.priv, f.agency, f.yad1, f.platinum, f.trio, f.booster, f.leadingBroker,
    f.kingOfTheHar]

/-- The category loop over one page's feed. -/
def processFeed (norm : Yad2FeedItem → Option Listing) (st : ScrapeState)
    (f : Yad2FeedData) : ScrapeState :=
  (bucketsOf f).foldl
    (fun st ob => match ob with
      | none => st
      | some items => processItems norm st items) st

/-- What one iteration of the page loop observes: a thrown error
(navigation/network/timeout, caught by the per-page `catch`), a page where
feed extraction yields no payload (`continue`), or a decoded feed. -/
inductive PageOutcome where
  | fetchError
  | noPayload
  | feed (f : Yad2FeedData)
deriving Repr

/-- The page loop: failed and payload-less pages leave the state untouched
and the loop continues with the next page. -/
def runPages (norm : Yad2FeedItem → Option Listing) (st : ScrapeState)
    (pages : List PageOutcome) : ScrapeState :=
  pages.foldl
    (fun st p => match p with
      | .fetchError => st
      | .noPayload => st
      | .feed f => processFeed norm st f) st

-- ── Geocoding pass ──

/-- Outcome of one `geocodeAddress` call as observed by the scraper's
per-listing `try`/`catch`: a thrown error, a `null` (no match), or
coordinates. -/
inductive GeoResult where
  | fail
  | noMatch
  | found (lat lng : Rat)
deriving Repr, DecidableEq

/-- The geocoding collaborator, as a deterministic oracle from the queried
address string. -/
def Geocoder : Type := String → GeoResult

/-- `!l.lat || !l.lng` — the filter selecting listings to geocode. -/
def needsGeocode (l : Listing) : Bool :=
  !truthyQ l.lat || !truthyQ l.lng

/-- The body of the geocoding loop for one listing (identical in both
variants): query `` `${listing.address}, ירושלים, ישראל` ``; on
coordinates set `lat`/`lng`, on `null` or a thrown error leave the listing
unchanged. -/
def enrichListing (geo : Geocoder) (l : Listing) : Listing :=
  if needsGeocode l then
    match geo (l.address ++ ", ירושלים, ישראל") with
    | .found la ln => { l with lat := some la, lng := some ln }
    | .noMatch => l
    | .fail => l
  else l

/-- The optional enrichment pass: `allListings.filter(needsGeocode)` is
traversed and mutated in place, so the final array is the pointwise image
of `enrichListing` (listings not selected by the filter are untouched,
which `enrichListing` reproduces). -/
def geocodePass (geocode : Bool) (geo : Geocoder) (ls : List Listing) : List Listing :=
  if geocode then ls.map (enrichListing geo) else ls

-- ── Top-level runs ──

/-- `scrapeYad2` of the direct-HTTP variant, with the per-page network and
extraction effects abstracted into the list of `PageOutcome`s: the page
loop never aborts, then the optional geocoding pass runs. -/
def scrapeYad2Direct (pages : List PageOutcome) (geocode : Bool)
    (geo : Geocoder) : List Listing :=
  geocodePass geocode geo (runPages Direct.feedItemToListing {} pages).listings

/-- Environment of the browser variant's startup: `CHROME_PATH`/discovery
fails (`findChromePath` throws, before the `try`), `puppeteer.launch`
throws (inside the `try`, swallowed by the outer `catch`), or the browser
is available. -/
inductive BrowserEnv where
  | noChrome
  | launchFails
  | ok
deriving Repr, DecidableEq

/-- `scrapeYad2` of the Puppeteer/browser variant.  `findChromePath` runs
before the `try` block, so its exception propagates to the caller
(`Except.error`); a launch failure is caught by the outer `catch`, which
only logs, after which the geocoding pass and the normal return still
execute on the empty accumulator. -/
def scrapeYad2Browser (env : BrowserEnv) (pages : List PageOutcome)
    (geocode : Bool) (geo : Geocoder) : Except String (List Listing) :=
  match env with
  | .noChrome => .error "[Yad2] Chrome/Chromium not found. Install Google Chrome or set CHROME_PATH environment variable."
  | .launchFails => .ok (geocodePass geocode geo ([] : List Listing))
  | .ok =>
    .ok (geocodePass geocode geo
      (runPages Browser.feedItemToListing {} pages).listings)

-- ── CaptchaGate (spec §4.2) ──

/-- Modelled from the spec: the `CaptchaState` enum of §3
(`{None, Detected, WaitingForSolve, Solved, TimedOut}`).  No
captcha-handling code is present under `src/`; the browser variant in
`yad2.ts` ships without it, so the gate is modelled from §4.2 of the
spec. -/
inductive CaptchaState where
  | challengeNone
  | detected
  | waitingForSolve
  | solved
  | timedOut
deriving Repr, DecidableEq

/-- Modelled from the spec: the transition relation of §4.2 — `None →
Detected`, `Detected → WaitingForSolve`, `WaitingForSolve → Solved`,
`WaitingForSolve → TimedOut`, and no other transitions. -/
def allowedTransition : CaptchaState → CaptchaState → Bool
  | .challengeNone, .detected => true
  | .detected, .waitingForSolve => true
  | .waitingForSolve, .solved => true
  | .waitingForSolve, .timedOut => true
  | _, _ => false

/-- Modelled from the spec: the polling wait of `WaitingForSolve` — re-check
the challenge signal on a fixed interval; the first poll with the signal
absent resolves to `Solved`, and exhausting the bounded window with the
signal still present resolves to `TimedOut`.  `signal t` is whether the
challenge signal is present at poll `t`; `fuel` is the number of polls
remaining in the window. -/
def waitForSolve (signal : Nat → Bool) : Nat → Nat → CaptchaState
  | 0, _ => CaptchaState.timedOut
  | fuel + 1, t =>
    if signal t then waitForSolve signal fuel (t + 1) else CaptchaState.solved

/-- Modelled from the spec: the state the gate ends one page's fetch in.
Detection happens at poll `0`; polls `1 .. maxPolls` form the bounded wait
window. -/
def captchaGateFinal (signal : Nat → Bool) (maxPolls : Nat) : CaptchaState :=
  if signal 0 then waitForSolve signal maxPolls 1 else CaptchaState.challengeNone

/-- Modelled from the spec: the sequence of states the gate passes through
for one page, starting from `None`. -/
def captchaTrace (signal : Nat → Bool) (maxPolls : Nat) : List CaptchaState :=
  if signal 0 then
    [CaptchaState.challengeNone, CaptchaState.detected,
      CaptchaState.waitingForSolve, waitForSolve signal maxPolls 1]
  else [CaptchaState.challengeNone]

/-- Modelled from the spec: only `TimedOut` aborts the run (§4.2: "the one
condition under which the entire run aborts with a fatal error"). -/
def CaptchaState.isFatal : CaptchaState → Bool
  | .timedOut => true
  | _ => false

/-- Modelled from the spec: a BrowserSession page fetch guarded by the
gate — a timed-out gate aborts the run fatally, every other final state
lets processing resume with the page's outcome. -/
def fetchPageWithGate (signal : Nat → Bool) (maxPolls : Nat)
    (payload : PageOutcome) : Except String PageOutcome :=
  if (captchaGateFinal signal maxPolls).isFatal then
    .error "captcha challenge unresolved within bound"
  else .ok payload

-- ── Page-state extraction: JS values, string search, JSON plumbing ──

/-- A JavaScript value as seen by the extraction code: the JSON universe
plus `undefined` (which expression evaluation can produce even though
`JSON.parse` cannot). -/
inductive JsVal where
  | undefVal
  | null
  | bool (b : Bool)
  | num (q : Rat)
  | str (s : String)
  | arr (xs : List JsVal)
  | obj (fields : List (String × JsVal))

/-- JS truthiness of a value. -/
def truthyJs : JsVal → Bool
  | .undefVal => false
  | .null => false
  | .bool b => b
  | .num q => q ≠ 0
  | .str s => s ≠ ""
  | .arr _ => true
  | .obj _ => true

/-- JS `a || b`. -/
def jsOr (a b : JsVal) : JsVal :=
  if truthyJs a then a else b

/-- Field lookup in an object literal; `undefined` when absent.  (Objects
decoded from JSON are assumed key-unique, as `JSON.parse` collapses
duplicates.) -/
def lookupField : List (String × JsVal) → String → JsVal
  | [], _ => .undefVal
  | (k, v) :: rest, key => if k = key then v else lookupField rest key

/-- JS member access `x.f`: a `TypeError` (modelled `Except.error`) on
`null`/`undefined`; field-or-`undefined` on objects; `undefined` on the
other primitives (no accessed name collides with a prototype property). -/
def dotField : JsVal → String → Except Unit JsVal
  | .undefVal, _ => .error ()
  | .null, _ => .error ()
  | .obj fs, k => .ok (lookupField fs k)
  | _, _ => .ok .undefVal

/-- JS optional chaining `x?.f`: `undefined` instead of a `TypeError`. -/
def qdot : JsVal → String → JsVal
  | .obj fs, k => lookupField fs k
  | _, _ => .undefVal

/-- JSON string escaping as performed by `JSON.stringify` (the rare
control characters JS renders as `\uXXXX` are passed through; this cannot
affect the marker-substring search the scraper performs). -/
def escapeJsonString (s : String) : String :=
  s.toList.foldl
    (fun acc c =>
      acc ++
        (if c = '"' then "\\\""
         else if c = '\\' then "\\\\"
         else if c = '\n' then "\\n"
         else if c = '\r' then "\\r"
         else if c = '\t' then "\\t"
         else String.singleton c)) ""

mutual

/-- `JSON.stringify`, used on `q.queryKey || ''`.  Non-integral numbers are
rendered via `Rat`'s printer rather than IEEE shortest-float notation, and
a (never-supplied) top-level `undefined` is rendered `"null"`; neither can
make the alphabetic marker substring appear or disappear. -/
def stringifyJs : JsVal → String
  | .undefVal => "null"
  | .null => "null"
  | .bool b => if b then "true" else "false"
  | .num q => if q.den = 1 then toString q.num else toString q
  | .str s => "\"" ++ escapeJsonString s ++ "\""
  | .arr xs => "[" ++ stringifyArr xs ++ "]"
  | .obj fs => "\x7b" ++ stringifyObj fs ++ "\x7d"

def stringifyArr : List JsVal → String
  | [] => ""
  | [x] => stringifyJs x
  | x :: y :: rest => stringifyJs x ++ "," ++ stringifyArr (y :: rest)

def stringifyObj : List (String × JsVal) → String
  | [] => ""
  | [(k, v)] => "\"" ++ escapeJsonString k ++ "\":" ++ stringifyJs v
  | (k, v) :: f :: rest =>
    "\"" ++ escapeJsonString k ++ "\":" ++ stringifyJs v ++ "," ++ stringifyObj (f :: rest)

end

/-- Whether `pat` is a prefix of `s` (character lists). -/
def startsWithChars : List Char → List Char → Bool
  | [], _ => true
  | _ :: _, [] => false
  | p :: ps, c :: cs => p = c && startsWithChars ps cs

/-- First index `≥ i` at which `pat` occurs in `s`, scanning left to
right. -/
def findSubstrAux (pat : List Char) : List Char → Nat → Option Nat
  | [], i => if pat.isEmpty then some i else none
  | s@(_ :: rest), i =>
    if startsWithChars pat s then some i else findSubstrAux pat rest (i + 1)

/-- JS `s.indexOf(pat, start)` (`none` for `-1`). -/
def strIndexOfFrom (s pat : String) (start : Nat) : Option Nat :=
  (findSubstrAux pat.toList (s.toList.drop start) 0).map (· + start)

/-- JS `s.indexOf(pat)` (`none` for `-1`). -/
def strIndexOf (s pat : String) : Option Nat :=
  strIndexOfFrom s pat 0

/-- JS `s.includes(pat)`. -/
def strContainsSub (s pat : String) : Bool :=
  (strIndexOf s pat).isSome

/-- JS `s.substring(a, b)` for `a ≤ b`. -/
def jsSubstring (s : String) (a b : Nat) : String :=
  String.mk ((s.toList.drop a).take (b - a))

/-- The hydration-script marker searched for in the raw markup. -/
def nextDataMarker : String :=
  "<script id=\"__NEXT_DATA__\" type=\"application/json\">"

/-- The listing-feed marker searched for in serialized query keys. -/
def feedMarker : String := "realestate-rent-feed"

/-- `nextData?.props?.pageProps?.dehydratedState?.queries` -/
def queriesOf (nextData : JsVal) : JsVal :=
  qdot (qdot (qdot (qdot nextData "props") "pageProps") "dehydratedState") "queries"

namespace Direct

/-- The query-scanning loop of `extractFeedFromNextData` (direct variant):
`const key = JSON.stringify(q.queryKey || ''); if
(key.includes('realestate-rent-feed')) return q.state?.data;` — note the
plain accesses `q.queryKey` and `q.state`, which throw when `q` is
`null`. -/
def findFeedQuery : List JsVal → Except Unit JsVal
  | [] => .ok .null
  | q :: rest =>
    match dotField q "queryKey" with
    | .error e => .error e
    | .ok qk =>
      if strContainsSub (stringifyJs (jsOr qk (JsVal.str ""))) feedMarker then
        match dotField q "state" with
        | .error e => .error e
        | .ok st => .ok (qdot st "data")
      else findFeedQuery rest

/-- `extractFeedFromNextData` (`yad2.ts` lines 450–462): no `try`/`catch`,
so a `TypeError` from the loop propagates to the per-page handler. -/
def extractFeedFromNextData (nextData : JsVal) : Except Unit JsVal :=
  match queriesOf nextData with
  | .arr qs => findFeedQuery qs
  | _ => .ok .null

/-- `extractNextData` (`yad2.ts` lines 426–448), with the platform's
`JSON.parse` abstracted as `parse` (`none` = the parser threw; the
surrounding `try`/`catch` turns that into `null`). -/
def extractNextData (parse : String → Option JsVal) (html : String) : JsVal :=
  match strIndexOf html nextDataMarker with
  | none => .null
  | some startIdx =>
    let jsonStart := startIdx + nextDataMarker.length
    match strIndexOfFrom html "</script>" jsonStart with
    | none => .null
    | some jsonEnd =>
      match parse (jsSubstring html jsonStart jsonEnd) with
      | some v => v
      | none => .null

end Direct

namespace Browser

/-- The query-scanning loop of `extractFeedFromPage` (browser variant):
as in the direct variant but returning `q.state?.data || null`. -/
def findFeedQuery : List JsVal → Except Unit JsVal
  | [] => .ok .null
  | q :: rest =>
    match dotField q "queryKey" with
    | .error e => .error e
    | .ok qk =>
      if strContainsSub (stringifyJs (jsOr qk (JsVal.str ""))) feedMarker then
        match dotField q "state" with
        | .error e => .error e
        | .ok st => .ok (jsOr (qdot st "data") JsVal.null)
      else findFeedQuery rest

/-- The in-page extraction of `extractFeedFromPage` (`yad2.ts` lines
138–166): `elText` is the hydration element's text (`none` when
`getElementById` finds no element); the whole parse-and-scan runs inside
`try { ... } catch { return null }`. -/
def extractFeedFromPage (parse : String → Option JsVal)
    (elText : Option String) : JsVal :=
  match elText with
  | none => JsVal.null
  | some txt =>
    match parse txt with
    | none => JsVal.null
    | some nd =>
      match queriesOf nd with
      | .arr qs =>
        match findFeedQuery qs with
        | .ok v => v
        | .error _ => JsVal.null
      | _ => JsVal.null

end Browser

-- ── Derived notions used by the statements ──

/-- The flattened item sequence of one page's feed, in bucket order then
item order — the exact order the nested loops visit. -/
def feedItems (f : Yad2FeedData) : List Yad2FeedItem :=
  (bucketsOf f).flatMap (fun ob => ob.getD [])

/-- The flattened item sequence of a whole run: page order, then bucket
order, then item order. -/
def pagesItems (pages : List PageOutcome) : List Yad2FeedItem :=
  pages.flatMap (fun p => match p with
    | .feed f => feedItems f
    | _ => [])

/-- The first item in iteration order carrying a given token. -/
def firstTokenItem (t : String) (items : List Yad2FeedItem) : Option Yad2FeedItem :=
  items.find? (fun it => it.token == some t)

/-- Number of listings in a result that carry a given source token. -/
def countTok (t : String) (ls : List Listing) : Nat :=
  ls.countP (fun l => l.source_id == some t)

/-- The address string sent to the geocoder for a listing. -/
def geoQuery (l : Listing) : String :=
  l.address ++ ", ירושלים, ישראל"

/-- Equality of every `Listing` field except the coordinates. -/
def sameExceptCoords (a b : Listing) : Prop :=
  a.id = b.id ∧ a.source = b.source ∧ a.source_id = b.source_id ∧
  a.title = b.title ∧ a.address = b.address ∧ a.street = b.street ∧
  a.neighborhood = b.neighborhood ∧ a.city = b.city ∧ a.price = b.price ∧
  a.rooms = b.rooms ∧ a.floor = b.floor ∧ a.size_sqm = b.size_sqm ∧
  a.contact_name = b.contact_name ∧ a.contact_phone = b.contact_phone ∧
  a.contact_info = b.contact_info ∧ a.description = b.description ∧
  a.image_url = b.image_url ∧ a.source_url = b.source_url

/-- Whether a (non-`null`) query's serialized key contains the feed
marker. -/
def queryMatches (q : JsVal) : Bool :=
  strContainsSub (stringifyJs (jsOr (qdot q "queryKey") (JsVal.str ""))) feedMarker

/-- A query entry on which plain member access is safe (anything but
`null`/`undefined`). -/
def safeEntry : JsVal → Prop
  | .undefVal => False
  | .null => False
  | _ => True

/-- A present textual address part, as a zero-or-one element list. -/
def textPart : Option String → List String
  | some s => if s ≠ "" then [s] else []
  | none => []

/-- A present house number, rendered decimally. -/
def housePart : Option Int → List String
  | some n => if n ≠ 0 then [toString n] else []
  | none => []

/-- The ordered list of present address parts — street name, house number,
neighborhood name, city name — as §4.4 of the spec words it ("each part
included only if present"), a textual part being present when set and
non-empty, the house number when set and non-zero. -/
def specAddressParts (addr : Yad2Address) : List String :=
  textPart addr.street ++ housePart (addr.house.bind Yad2House.number) ++
    textPart addr.neighborhood ++ textPart addr.city

-- ── Concrete fixtures for witnesses and counterexamples ──

/-- Test address: all four parts present. -/
def cAddrFull : Yad2Address :=
  { street := some "Jaffa Street", house := some { number := some 25 },
    neighborhood := some "Rehavia", city := some "Jerusalem" }

/-- Test address: street absent, house number still 25. -/
def cAddrNoStreet : Yad2Address :=
  { house := some { number := some 25 },
    neighborhood := some "Rehavia", city := some "Jerusalem" }

/-- A fully valid raw item with token `t1`. -/
def cItemGood : Yad2FeedItem :=
  { address := some cAddrFull, price := some 4500, token := some "t1",
    additionalDetails := some { roomsCount := some 3 } }

/-- An item with token `t1` but no price: fails validation in both
variants. -/
def cItemBad : Yad2FeedItem :=
  { address := some cAddrFull, token := some "t1" }

/-- A priced item with no rooms count. -/
def cItemNoRooms : Yad2FeedItem :=
  { address := some cAddrFull, price := some 4500, token := some "t2" }

/-- An item with no token at all. -/
def cItemNoToken : Yad2FeedItem :=
  { address := some cAddrFull, price := some 4500 }

/-- An item with an empty-string token. -/
def cItemEmptyToken : Yad2FeedItem :=
  { address := some cAddrFull, price := some 4500, token := some "" }

/-- The listing `Direct.feedItemToListing` produces for `cItemGood`. -/
def cListingGood : Listing :=
  { id := "yad2_t1", source := "yad2", source_id := some "t1",
    title := some "דירה - Jaffa Street",
    address := "Jaffa Street, 25, Rehavia, Jerusalem",
    street := some "Jaffa Street", neighborhood := some "Rehavia",
    city := some "Jerusalem", price := 4500, rooms := 3,
    contact_info := "yad2.co.il/item/t1",
    source_url := some "https://www.yad2.co.il/item/t1" }

/-- The listing `Browser.feedItemToListing` produces for `cItemGood`
(only `contact_info` differs between the variants). -/
def cListingGoodB : Listing :=
  { cListingGood with contact_info := "https://www.yad2.co.il/item/t1" }

/-- `cListingGood` with a coordinate pair filled in. -/
def cListingWithCoords : Listing :=
  { cListingGood with lat := some 31, lng := some 35 }

/-- A feed whose only item is the failing `cItemBad`. -/
def cFeedBadOnly : Yad2FeedData := { priv := some [cItemBad] }

/-- A feed with the failing `cItemBad` in `private` and the valid
`cItemGood` (same token) in `agency`. -/
def cFeedBadThenGood : Yad2FeedData :=
  { priv := some [cItemBad], agency := some [cItemGood] }

/-- A feed whose only item is the valid `cItemGood`, in two buckets. -/
def cFeedGoodTwice : Yad2FeedData :=
  { priv := some [cItemGood], agency := some [cItemGood] }

/-- A feed whose only item is the valid `cItemGood`. -/
def cFeedGood : Yad2FeedData := { priv := some [cItemGood] }

/-- A geocoder oracle that never finds a match. -/
def geoNoMatch : Geocoder := fun _ => GeoResult.noMatch

/-- A geocoder oracle that always throws. -/
def geoFail : Geocoder := fun _ => GeoResult.fail

/-- A geocoder oracle that always returns the fixed point (31, 35). -/
def geoFound : Geocoder := fun _ => GeoResult.found 31 35

/-- Hydration payload whose `queries` list contains a single `null`
entry. -/
def cNextDataNullQuery : JsVal :=
  JsVal.obj [("props", JsVal.obj [("pageProps", JsVal.obj
    [("dehydratedState", JsVal.obj [("queries", JsVal.arr [JsVal.null])])])])]

/-- A dehydrated query whose serialized key contains the feed marker and
whose state carries the data `JsVal.str "FEED"`. -/
def cQueryGood : JsVal :=
  JsVal.obj [("queryKey", JsVal.arr [JsVal.str "realestate-rent-feed-map"]),
    ("state", JsVal.obj [("data", JsVal.str "FEED")])]

/-- A well-formed hydration payload whose single query is `cQueryGood`. -/
def cNextDataGood : JsVal :=
  JsVal.obj [("props", JsVal.obj [("pageProps", JsVal.obj
    [("dehydratedState", JsVal.obj [("queries", JsVal.arr [cQueryGood])])])])]

/-- A raw markup string embedding the literal `null` as hydration JSON. -/
def cHtmlGood : String := nextDataMarker ++ "null" ++ "</script>"

/-- A stub for the platform JSON parser recognizing only `"null"`. -/
def cParse : String → Option JsVal :=
  fun s => if s = "null" then some JsVal.null else none

-- ── Helper lemmas: normalizers ──

theorem direct_source_id_eq_token (item : Yad2FeedItem) (l : Listing)
    (h : Direct.feedItemToListing item = some l) : l.source_id = item.token := by
  unfold Direct.feedItemToListing at h
  split at h
  · exact absurd h (by simp)
  · cases h; rfl

theorem browser_source_id_eq_token (item : Yad2FeedItem) (l : Listing)
    (h : Browser.feedItemToListing item = some l) : l.source_id = item.token := by
  unfold Browser.feedItemToListing at h
  split at h
  · exact absurd h (by simp)
  · cases h; rfl

-- ── Helper lemmas: the deduplication loop ──

theorem processItem_falsy_token (norm : Yad2FeedItem → Option Listing)
    (st : ScrapeState) (item : Yad2FeedItem)
    (h : item.token = none ∨ item.token = some "") :
    processItem norm st item = st := by
  rcases h with h | h <;> simp [processItem, h]

theorem processItem_listings_mono (norm : Yad2FeedItem → Option Listing)
    (st : ScrapeState) (item : Yad2FeedItem) (l : Listing)
    (h : l ∈ st.listings) : l ∈ (processItem norm st item).listings := by
  unfold processItem
  rcases item.token with _ | tok
  · exact h
  · dsimp only
    split
    · exact h
    · split
      · exact h
      · rcases hn : norm item with _ | l' <;> simp [h]

theorem processItem_seen_mono (norm : Yad2FeedItem → Option Listing)
    (st : ScrapeState) (item : Yad2FeedItem) (t : String)
    (h : t ∈ st.seen) : t ∈ (processItem norm st item).seen := by
  unfold processItem
  rcases item.token with _ | tok
  · exact h
  · dsimp only
    split
    · exact h
    · split
      · exact h
      · rcases hn : norm item with _ | l' <;> simp [h]

theorem processItems_listings_mono (norm : Yad2FeedItem → Option Listing)
    (items : List Yad2FeedItem) (st : ScrapeState) (l : Listing)
    (h : l ∈ st.listings) : l ∈ (processItems norm st items).listings := by
  induction items generalizing st with
  | nil => exact h
  | cons x xs ih =>
    exact ih _ (processItem_listings_mono norm st x l h)

theorem processItems_seen_mono (norm : Yad2FeedItem → Option Listing)
    (items : List Yad2FeedItem) (st : ScrapeState) (t : String)
    (h : t ∈ st.seen) : t ∈ (processItems norm st items).seen := by
  induction items generalizing st with
  | nil => exact h
  | cons x xs ih =>
    exact ih _ (processItem_seen_mono norm st x t h)

/-- Invariant carried by the deduplication loop: every accumulated listing
has a source token drawn from the seen set, and those tokens are pairwise
distinct. -/
def TokInv (st : ScrapeState) : Prop :=
  (∀ l ∈ st.listings, ∃ tk, l.source_id = some tk ∧ tk ∈ st.seen) ∧
    (st.listings.map Listing.source_id).Nodup

theorem tokInv_empty : TokInv {} := by
  constructor
  · intro l hl; cases hl
  · simp [ScrapeState.listings]

theorem processItem_tokinv (norm : Yad2FeedItem → Option Listing)
    (hn : ∀ item l, norm item = some l → l.source_id = item.token)
    (st : ScrapeState) (item : Yad2FeedItem)
    (h : TokInv st) : TokInv (processItem norm st item) := by
  obtain ⟨hmem, hnd⟩ := h
  unfold processItem
  rcases htok : item.token with _ | tok
  · exact ⟨hmem, hnd⟩
  · dsimp only
    split
    · exact ⟨hmem, hnd⟩
    · split
      · exact ⟨hmem, hnd⟩
      · rcases hno : norm item with _ | l'
        · refine ⟨fun l hl => ?_, hnd⟩
          obtain ⟨tk, htk, hseen⟩ := hmem l hl
          exact ⟨tk, htk, List.mem_cons_of_mem _ hseen⟩
        · rename_i hcont
          have hsid : l'.source_id = some tok := by rw [hn item l' hno, htok]
          constructor
          · intro l hl
            rw [List.mem_append] at hl
            rcases hl with hl | hl
            · obtain ⟨tk, htk, hseen⟩ := hmem l hl
              exact ⟨tk, htk, List.mem_cons_of_mem _ hseen⟩
            · rw [List.mem_singleton] at hl
              subst hl
              exact ⟨tok, hsid, List.mem_cons_self _ _⟩
          · rw [List.map_append, List.map_singleton]
            rw [List.nodup_append]
            refine ⟨hnd, List.nodup_singleton _, ?_⟩
            intro x hx hx1
            rw [List.mem_singleton] at hx1
            subst hx1
            rw [List.mem_map] at hx
            obtain ⟨l, hl, hleq⟩ := hx
            obtain ⟨tk, htk, hseen⟩ := hmem l hl
            rw [htk] at hleq
            rw [hsid] at hleq
            obtain rfl : tk = tok := by
              simpa using hleq
            exact hcont (List.elem_eq_true_of_mem hseen)

theorem processItems_tokinv (norm : Yad2FeedItem → Option Listing)
    (hn : ∀ item l, norm item = some l → l.source_id = item.token)
    (items : List Yad2FeedItem) (st : ScrapeState)
    (h : TokInv st) : TokInv (processItems norm st items) := by
  induction items generalizing st with
  | nil => exact h
  | cons x xs ih => exact ih _ (processItem_tokinv norm hn st x h)

theorem processItems_append (norm : Yad2FeedItem → Option Listing)
    (st : ScrapeState) (a b : List Yad2FeedItem) :
    processItems norm st (a ++ b) = processItems norm (processItems norm st a) b := by
  unfold processItems
  exact List.foldl_append _ _ _ _

theorem processFeed_eq_processItems (norm : Yad2FeedItem → Option Listing)
    (st : ScrapeState) (f : Yad2FeedData) :
    processFeed norm st f = processItems norm st (feedItems f) := by
  unfold processFeed feedItems
  generalize bucketsOf f = bs
  induction bs generalizing st with
  | nil => rfl
  | cons ob bs ih =>
    rcases ob with _ | items
    · simpa using ih st
    · simp only [List.foldl_cons, List.flatMap_cons, Option.getD_some,
        processItems_append]
      exact ih _

theorem runPages_eq_processItems (norm : Yad2FeedItem → Option Listing)
    (st : ScrapeState) (pages : List PageOutcome) :
    runPages norm st pages = processItems norm st (pagesItems pages) := by
  induction pages generalizing st with
  | nil => rfl
  | cons p ps ih =>
    rcases p with _ | _ | f
    · simpa [runPages, pagesItems] using ih st
    · simpa [runPages, pagesItems] using ih st
    · simp only [runPages, pagesItems, List.foldl_cons, List.flatMap_cons,
        processItems_append]
      rw [← processFeed_eq_processItems]
      exact ih _

/-- Once a token is in the seen set and no accumulated listing carries it,
no later item can ever contribute a listing with that token. -/
theorem processItems_blocked_token (norm : Yad2FeedItem → Option Listing)
    (hn : ∀ item l, norm item = some l → l.source_id = item.token)
    (t : String) (items : List Yad2FeedItem) (st : ScrapeState)
    (hseen : t ∈ st.seen)
    (hnone : ∀ l ∈ st.listings, l.source_id ≠ some t) :
    ∀ l ∈ (processItems norm st items).listings, l.source_id ≠ some t := by
  induction items generalizing st with
  | nil => exact hnone
  | cons x xs ih =>
    refine ih (processItem norm st x) (processItem_seen_mono norm st x t hseen) ?_
    unfold processItem
    rcases htok : x.token with _ | tok
    · exact hnone
    · dsimp only
      split
      · exact hnone
      · split
        · exact hnone
        · rename_i hcont
          rcases hno : norm x with _ | l'
          · exact hnone
          · intro l hl
            rw [List.mem_append] at hl
            rcases hl with hl | hl
            · exact hnone l hl
            · rw [List.mem_singleton] at hl
              rw [hl, hn x l' hno, htok]
              intro hc
              obtain rfl : tok = t := by simpa using hc
              exact hcont (List.elem_eq_true_of_mem hseen)

/-- If the first item carrying token `t` normalizes successfully, its
listing is in the final accumulator. -/
theorem processItems_first_wins (norm : Yad2FeedItem → Option Listing)
    (t : String) (items : List Yad2FeedItem) (st : ScrapeState)
    (i : Yad2FeedItem) (l : Listing)
    (ht : t ≠ "") (hseen : t ∉ st.seen)
    (hfirst : firstTokenItem t items = some i)
    (hnorm : norm i = some l) :
    l ∈ (processItems norm st items).listings := by
  induction items generalizing st with
  | nil => simp [firstTokenItem] at hfirst
  | cons x xs ih =>
    rw [firstTokenItem, List.find?_cons] at hfirst
    by_cases hx : x.token = some t
    · have hbx : (x.token == some t) = true := by simpa using hx
      simp only [hbx] at hfirst
      have hxi : x = i := by simpa using hfirst
      subst hxi
      have hcont : st.seen.contains t = false :=
        Bool.eq_false_iff.mpr (fun hc => hseen (List.mem_of_elem_eq_true hc))
      have hstep : (processItem norm st x).listings = st.listings ++ [l] := by
        simp [processItem, hx, ht, hcont, hnorm, hseen]
      exact processItems_listings_mono norm xs _ l (by simp [hstep])
    · have hbx : (x.token == some t) = false := by simpa using hx
      simp only [hbx] at hfirst
      refine ih _ ?_ hfirst
      unfold processItem
      rcases htok : x.token with _ | tok
      · exact hseen
      · dsimp only
        split
        · exact hseen
        · split
          · exact hseen
          · have htne : tok ≠ t := fun hc => hx (by rw [htok, hc])
            rcases norm x with _ | l' <;>
              exact fun hmem => (List.mem_cons.mp hmem).elim
                (fun h1 => absurd h1.symm htne) (fun h2 => hseen h2)

/-- `countP` over a token-distinct accumulator is at most one per token. -/
theorem countTok_le_one_of_nodup (t : String) (ls : List Listing)
    (h : (ls.map Listing.source_id).Nodup) : countTok t ls ≤ 1 := by
  induction ls with
  | nil => simp [countTok]
  | cons l rest ih =>
    rw [List.map_cons, List.nodup_cons] at h
    obtain ⟨hnotin, hnd⟩ := h
    unfold countTok
    rw [List.countP_cons]
    by_cases hl : l.source_id = some t
    · have hzero : rest.countP (fun x => x.source_id == some t) = 0 := by
        rw [List.countP_eq_zero]
        intro x hx
        simp only [beq_iff_eq]
        intro hc
        exact hnotin (by rw [hl, ← hc]; exact List.mem_map_of_mem _ hx)
      simp [hzero, hl]
    · have : (l.source_id == some t) = false := by simpa using hl
      simpa [this] using ih hnd

-- ── Helper lemmas: decimal printing is never empty ──

theorem toDigitsCore_length_ge (b : Nat) :
    ∀ (fuel n : Nat) (ds : List Char),
      ds.length ≤ (Nat.toDigitsCore b fuel n ds).length := by
  intro fuel
  induction fuel with
  | zero => intro n ds; simp [Nat.toDigitsCore]
  | succ f ih =>
    intro n ds
    simp only [Nat.toDigitsCore]
    split
    · simp
    · calc ds.length ≤ ds.length + 1 := by omega
        _ = (Nat.digitChar (n % b) :: ds).length := by simp
        _ ≤ _ := ih _ _

theorem toDigitsCore_length_pos (b f n : Nat) (ds : List Char) :
    ds.length + 1 ≤ (Nat.toDigitsCore b (f + 1) n ds).length := by
  simp only [Nat.toDigitsCore]
  split
  · simp
  · calc ds.length + 1 = (Nat.digitChar (n % b) :: ds).length := by simp
      _ ≤ _ := toDigitsCore_length_ge b f _ _

theorem natRepr_ne_empty (n : Nat) : Nat.repr n ≠ "" := by
  have h := toDigitsCore_length_pos 10 n n []
  intro hc
  unfold Nat.repr Nat.toDigits at hc
  have hdata : Nat.toDigitsCore 10 (n + 1) n [] = [] := congrArg String.data hc
  rw [hdata] at h
  simp at h

theorem intToString_ne_empty (n : Int) : toString n ≠ "" := by
  show Int.repr n ≠ ""
  cases n with
  | ofNat m => exact natRepr_ne_empty m
  | negSucc m =>
    intro hc
    have hdata := congrArg String.data hc
    simp [Int.repr, String.data_append] at hdata

-- ── Helper lemmas: the address builder ──

theorem push_textPart (l : List String) (o : Option String) :
    (if truthyS o then l ++ [o.getD ""] else l) = l ++ textPart o := by
  rcases o with _ | s
  · simp [truthyS, textPart]
  · by_cases hs : s = "" <;> simp [truthyS, textPart, hs]

theorem push_housePart (l : List String) (o : Option Int) :
    (if truthyI o then l ++ [toString (o.getD 0)] else l) = l ++ housePart o := by
  rcases o with _ | n
  · simp [truthyI, housePart]
  · by_cases hn : n = 0 <;> simp [truthyI, housePart, hn]

theorem buildAddress_eq_specParts (addr : Yad2Address) :
    buildAddress addr = String.intercalate ", " (specAddressParts addr) := by
  simp only [buildAddress, specAddressParts]
  simp only [push_textPart, push_housePart]
  simp [List.append_assoc]

theorem textPart_ne_empty (o : Option String) : ∀ p ∈ textPart o, p ≠ "" := by
  rcases o with _ | s
  · intro p hp; cases hp
  · intro p hp
    by_cases hs : s = ""
    · simp [textPart, hs] at hp
    · simp [textPart, hs] at hp
      subst hp; exact hs

theorem housePart_ne_empty (o : Option Int) : ∀ p ∈ housePart o, p ≠ "" := by
  rcases o with _ | n
  · intro p hp; cases hp
  · intro p hp
    by_cases hn : n = 0
    · simp [housePart, hn] at hp
    · simp [housePart, hn] at hp
      subst hp; exact intToString_ne_empty n

theorem specParts_ne_empty (addr : Yad2Address) :
    ∀ p ∈ specAddressParts addr, p ≠ "" := by
  intro p hp
  unfold specAddressParts at hp
  simp only [List.mem_append] at hp
  rcases hp with ((hp | hp) | hp) | hp
  · exact textPart_ne_empty _ p hp
  · exact housePart_ne_empty _ p hp
  · exact textPart_ne_empty _ p hp
  · exact textPart_ne_empty _ p hp

-- ── Helper lemmas: geocode enrichment ──

theorem enrichListing_frame (geo : Geocoder) (l : Listing) :
    sameExceptCoords (enrichListing geo l) l := by
  unfold enrichListing sameExceptCoords
  split
  · split <;> simp
  · simp

theorem enrichListing_skips_full (geo : Geocoder) (l : Listing)
    (hlat : truthyQ l.lat) (hlng : truthyQ l.lng) :
    enrichListing geo l = l := by
  unfold enrichListing
  rw [if_neg]
  simp [needsGeocode, hlat, hlng]

theorem enrichListing_failure (geo : Geocoder) (l : Listing)
    (h : geo (geoQuery l) = GeoResult.fail ∨ geo (geoQuery l) = GeoResult.noMatch) :
    enrichListing geo l = l := by
  unfold enrichListing
  split
  · rcases h with h | h <;> rw [geoQuery] at h <;> rw [h]
  · rfl

theorem opt_coord_truthy (X : Option Rat)
    (h : (if truthyQ X then X else none) ≠ none) :
    truthyQ (if truthyQ X then X else none) := by
  by_cases hx : truthyQ X
  · rwa [if_pos hx]
  · rw [if_neg hx] at h
    exact absurd rfl h

-- ── Helper lemmas: CaptchaGate polling ──

theorem waitForSolve_timedOut (signal : Nat → Bool) :
    ∀ (fuel start : Nat), (∀ t, start ≤ t → t < start + fuel → signal t = true) →
      waitForSolve signal fuel start = CaptchaState.timedOut := by
  intro fuel
  induction fuel with
  | zero => intro start _; rfl
  | succ f ih =>
    intro start h
    unfold waitForSolve
    rw [h start (Nat.le_refl _) (by omega)]
    simp only [if_true]
    exact ih (start + 1) (fun t h1 h2 => h t (by omega) (by omega))

theorem waitForSolve_solved (signal : Nat → Bool) :
    ∀ (fuel start k : Nat), start ≤ k → k < start + fuel → signal k = false →
      waitForSolve signal fuel start = CaptchaState.solved := by
  intro fuel
  induction fuel with
  | zero => intro start k h1 h2 _; omega
  | succ f ih =>
    intro start k h1 h2 h3
    unfold waitForSolve
    by_cases hs : signal start
    · rw [hs]
      simp only [if_true]
      have hks : k ≠ start := fun hc => by rw [hc, hs] at h3; cases h3
      exact ih (start + 1) k (by omega) (by omega) h3
    · rw [Bool.not_eq_true] at hs
      rw [hs]
      simp

-- ── Helper lemmas: the query-scanning loops ──

theorem dotField_safe (q : JsVal) (k : String) (h : safeEntry q) :
    dotField q k = .ok (qdot q k) := by
  cases q with
  | undefVal => exact h.elim
  | null => exact h.elim
  | bool b => rfl
  | num q => rfl
  | str s => rfl
  | arr xs => rfl
  | obj fs => rfl

theorem Direct.findFeedQuery_no_match (qs : List JsVal)
    (h : ∀ q ∈ qs, safeEntry q ∧ queryMatches q = false) :
    Direct.findFeedQuery qs = .ok JsVal.null := by
  induction qs with
  | nil => rfl
  | cons q rest ih =>
    obtain ⟨hsafe, hmatch⟩ := h q (List.mem_cons_self _ _)
    unfold Direct.findFeedQuery
    rw [dotField_safe q _ hsafe]
    dsimp only
    rw [queryMatches] at hmatch
    rw [hmatch]
    simp only [Bool.false_eq_true, if_false]
    exact ih (fun q' hq' => h q' (List.mem_cons_of_mem _ hq'))

theorem Direct.findFeedQuery_first (qs1 : List JsVal) (q : JsVal) (qs2 : List JsVal)
    (h1 : ∀ q' ∈ qs1, safeEntry q' ∧ queryMatches q' = false)
    (hq : safeEntry q) (hm : queryMatches q = true) :
    Direct.findFeedQuery (qs1 ++ q :: qs2) = .ok (qdot (qdot q "state") "data") := by
  induction qs1 with
  | nil =>
    rw [List.nil_append]
    unfold Direct.findFeedQuery
    rw [dotField_safe q _ hq]
    dsimp only
    rw [queryMatches] at hm
    rw [hm]
    simp only [if_true]
    rw [dotField_safe q _ hq]
  | cons x rest ih =>
    obtain ⟨hsafe, hmatch⟩ := h1 x (List.mem_cons_self _ _)
    rw [List.cons_append]
    unfold Direct.findFeedQuery
    rw [dotField_safe x _ hsafe]
    dsimp only
    rw [queryMatches] at hmatch
    rw [hmatch]
    simp only [Bool.false_eq_true, if_false]
    exact ih (fun q' hq' => h1 q' (List.mem_cons_of_mem _ hq'))

theorem priceInvalid_false {o : Option Rat} (h : priceInvalid o = false) :
    0 < o.getD 0 := by
  rcases o with _ | p
  · simp [priceInvalid] at h
  · simp only [priceInvalid, decide_eq_false_iff_not, not_le] at h
    simpa using h

theorem roomsInvalid_false {o : Option Rat} (h : roomsInvalid o = false) :
    0 < o.getD 0 := by
  rcases o with _ | p
  · simp [roomsInvalid] at h
  · simp only [roomsInvalid, decide_eq_false_iff_not, not_le] at h
    simpa using h

-- ── Claim theorems ──

/-- C1, amended: the direct-HTTP variant's `feedItemToListing` returns a
listing only when the derived address is non-empty and price and rooms are
present and positive, and returns none whenever the address is empty or
price or rooms is missing/non-positive; the browser variant checks only
address and price — its missing/zero rooms count is defaulted to `0`, so
it guarantees address and price but not rooms positivity. -/
theorem c1_normalizer_validation :
    (∀ item l, Direct.feedItemToListing item = some l →
        l.address ≠ "" ∧ 0 < l.price ∧ 0 < l.rooms) ∧
    (∀ item, (buildAddress (item.address.getD emptyAddress) = "" ∨
        priceInvalid item.price = true ∨
        roomsInvalid (item.additionalDetails.bind Yad2AdditionalDetails.roomsCount) = true) →
      Direct.feedItemToListing item = none) ∧
    (∀ item l, Browser.feedItemToListing item = some l →
        l.address ≠ "" ∧ 0 < l.price) ∧
    (∀ item, (buildAddress (item.address.getD emptyAddress) = "" ∨
        priceInvalid item.price = true) →
      Browser.feedItemToListing item = none) := by
  refine ⟨?_, ?_, ?_, ?_⟩
  · intro item l h
    unfold Direct.feedItemToListing at h
    split at h
    · exact absurd h (by simp)
    · rename_i hcond
      push_neg at hcond
      obtain ⟨ha, hp, hr⟩ := hcond
      have hl : Direct.listingOf item = l := Option.some_inj.mp h
      refine ⟨?_, ?_, ?_⟩
      · rw [← hl]; exact ha
      · rw [← hl]
        exact priceInvalid_false (Bool.not_eq_true _ ▸ hp)
      · rw [← hl]
        show 0 < (item.additionalDetails.bind Yad2AdditionalDetails.roomsCount).getD 0
        exact roomsInvalid_false (Bool.not_eq_true _ ▸ hr)
  · intro item h
    unfold Direct.feedItemToListing
    rw [if_pos h]
  · intro item l h
    unfold Browser.feedItemToListing at h
    split at h
    · exact absurd h (by simp)
    · rename_i hcond
      push_neg at hcond
      obtain ⟨ha, hp⟩ := hcond
      have hl : Browser.listingOf item = l := Option.some_inj.mp h
      constructor
      · rw [← hl]; exact ha
      · rw [← hl]
        exact priceInvalid_false (Bool.not_eq_true _ ▸ hp)
  · intro item h
    unfold Browser.feedItemToListing
    rw [if_pos h]

/-- C1 witness: `cItemGood` passes both normalizers with the guaranteed
bounds; `cItemBad` (no price) is rejected by both. -/
theorem c1_witness :
    (cListingGood.address ≠ "" ∧ 0 < cListingGood.price ∧ 0 < cListingGood.rooms) ∧
    Direct.feedItemToListing cItemBad = none ∧
    Browser.feedItemToListing cItemBad = none :=
  ⟨c1_normalizer_validation.1 cItemGood cListingGood (by rfl),
   c1_normalizer_validation.2.1 cItemBad (Or.inr (Or.inl rfl)),
   c1_normalizer_validation.2.2.2 cItemBad (Or.inr rfl)⟩

/-- C1 counterexample: the browser variant normalizes `cItemNoRooms`, whose
rooms count is absent, into a listing with `rooms = 0` — so the claim's
"for every item with missing rooms it returns no listing ... for both
fetch-strategy variants" is false. -/
theorem c1_counterexample :
    cItemNoRooms.additionalDetails = none ∧
      Browser.feedItemToListing cItemNoRooms =
        some (Browser.listingOf cItemNoRooms) ∧
      (Browser.listingOf cItemNoRooms).rooms = 0 := by
  refine ⟨rfl, ?_, rfl⟩
  rfl

/-- C3, amended: `buildAddress` joins exactly the present parts (street
text, house number, neighborhood text, city text, in that order) with the
fixed separator `", "`; all joined parts are non-empty strings, so no
leading, trailing, or doubled separators arise; the full example yields
`"Jaffa Street, 25, Rehavia, Jerusalem"`; with street absent the house
number is retained — `"25, Rehavia, Jerusalem"` — and only with street and
house both absent does it yield `"Rehavia, Jerusalem"`. -/
theorem c3_buildAddress_joins_present_parts :
    (∀ addr : Yad2Address,
      buildAddress addr = String.intercalate ", " (specAddressParts addr) ∧
        ∀ p ∈ specAddressParts addr, p ≠ "") ∧
    buildAddress cAddrFull = "Jaffa Street, 25, Rehavia, Jerusalem" ∧
    buildAddress cAddrNoStreet = "25, Rehavia, Jerusalem" ∧
    buildAddress { cAddrNoStreet with house := none } = "Rehavia, Jerusalem" := by
  refine ⟨fun addr => ⟨buildAddress_eq_specParts addr, specParts_ne_empty addr⟩,
    ?_, ?_, ?_⟩ <;> rfl

/-- C3 witness: the general part instantiated on the concrete full
address. -/
theorem c3_witness :
    buildAddress cAddrFull = String.intercalate ", " (specAddressParts cAddrFull) ∧
      "Jaffa Street" ≠ "" :=
  ⟨(c3_buildAddress_joins_present_parts.1 cAddrFull).1,
    (c3_buildAddress_joins_present_parts.1 cAddrFull).2 "Jaffa Street" (by decide)⟩

/-- C3 counterexample: the claim's second example — the full input with only
street removed — yields `"25, Rehavia, Jerusalem"`, not the claimed
`"Rehavia, Jerusalem"`: the house number is kept even without a street. -/
theorem c3_counterexample :
    buildAddress cAddrNoStreet = "25, Rehavia, Jerusalem" ∧
      buildAddress cAddrNoStreet ≠ "Rehavia, Jerusalem" := by
  refine ⟨rfl, ?_⟩
  intro h
  exact absurd (rfl.trans h ▸ rfl : ("25, Rehavia, Jerusalem" : String) = "Rehavia, Jerusalem") (by decide)

/-- C10: an item whose token is absent or the empty string is a no-op at
the deduplication gate, for any normalizer: it is never normalized, adds
nothing to the accumulator, and is not recorded in the seen-token set. -/
theorem c10_falsy_token_skipped :
    ∀ (norm : Yad2FeedItem → Option Listing) (st : ScrapeState) (item : Yad2FeedItem),
      item.token = none ∨ item.token = some "" →
      processItem norm st item = st :=
  fun norm st item h => processItem_falsy_token norm st item h

/-- C10 witness: the token-less and empty-token items leave the initial
state untouched under both variants' normalizers. -/
theorem c10_witness :
    processItem Direct.feedItemToListing {} cItemNoToken = {} ∧
      processItem Browser.feedItemToListing {} cItemEmptyToken = {} :=
  ⟨c10_falsy_token_skipped _ _ _ (Or.inl rfl),
   c10_falsy_token_skipped _ _ _ (Or.inr rfl)⟩

theorem runPages_skip (norm : Yad2FeedItem → Option Listing) (st : ScrapeState)
    (ps₁ ps₂ : List PageOutcome) (p : PageOutcome)
    (h : p = PageOutcome.fetchError ∨ p = PageOutcome.noPayload) :
    runPages norm st (ps₁ ++ p :: ps₂) = runPages norm st (ps₁ ++ ps₂) := by
  unfold runPages
  rw [List.foldl_append, List.foldl_append, List.foldl_cons]
  rcases h with h | h <;> subst h <;> rfl

/-- C4: a page-level failure — a thrown navigation/network/timeout error or
a missing/unparsable hydration payload — never aborts the run: deleting the
failing page from the page sequence leaves the run's result unchanged, in
both variants, and the browser run (with a working browser) always returns
a result, never an error. -/
theorem c4_page_failures_never_abort :
    (∀ (ps₁ ps₂ : List PageOutcome) (p : PageOutcome) (g : Bool) (geo : Geocoder),
      (p = PageOutcome.fetchError ∨ p = PageOutcome.noPayload) →
      scrapeYad2Direct (ps₁ ++ p :: ps₂) g geo = scrapeYad2Direct (ps₁ ++ ps₂) g geo) ∧
    (∀ (ps₁ ps₂ : List PageOutcome) (p : PageOutcome) (g : Bool) (geo : Geocoder),
      (p = PageOutcome.fetchError ∨ p = PageOutcome.noPayload) →
      scrapeYad2Browser BrowserEnv.ok (ps₁ ++ p :: ps₂) g geo =
        scrapeYad2Browser BrowserEnv.ok (ps₁ ++ ps₂) g geo) ∧
    (∀ (ps : List PageOutcome) (g : Bool) (geo : Geocoder),
      ∃ ls, scrapeYad2Browser BrowserEnv.ok ps g geo = .ok ls) := by
  refine ⟨?_, ?_, ?_⟩
  · intro ps₁ ps₂ p g geo h
    unfold scrapeYad2Direct
    rw [runPages_skip _ _ _ _ _ h]
  · intro ps₁ ps₂ p g geo h
    unfold scrapeYad2Browser
    rw [runPages_skip _ _ _ _ _ h]
  · intro ps g geo
    exact ⟨_, rfl⟩

/-- C4 witness: dropping a failed first page, or a payload-less page, leaves
the concrete runs' results unchanged. -/
theorem c4_witness :
    scrapeYad2Direct [PageOutcome.fetchError, PageOutcome.feed cFeedGood] false geoNoMatch =
      scrapeYad2Direct [PageOutcome.feed cFeedGood] false geoNoMatch ∧
    scrapeYad2Browser BrowserEnv.ok [PageOutcome.noPayload] false geoNoMatch =
      scrapeYad2Browser BrowserEnv.ok [] false geoNoMatch :=
  ⟨c4_page_failures_never_abort.1 [] [PageOutcome.feed cFeedGood] _ false geoNoMatch (Or.inl rfl),
   c4_page_failures_never_abort.2.1 [] [] _ false geoNoMatch (Or.inr rfl)⟩

/-- C5, amended: if no Chrome/Chromium executable is found (`findChromePath`
throws before the `try` block), the run aborts with a fatal error; but when
the browser launch itself fails, the outer `catch` swallows the error and
the run completes normally with an empty result — it does not abort. -/
theorem c5_browser_startup_behavior :
    (∀ (ps : List PageOutcome) (g : Bool) (geo : Geocoder),
      scrapeYad2Browser BrowserEnv.noChrome ps g geo =
        .error "[Yad2] Chrome/Chromium not found. Install Google Chrome or set CHROME_PATH environment variable.") ∧
    (∀ (ps : List PageOutcome) (g : Bool) (geo : Geocoder),
      scrapeYad2Browser BrowserEnv.launchFails ps g geo = .ok []) := by
  constructor <;> intro ps g geo
  · rfl
  · unfold scrapeYad2Browser geocodePass
    cases g <;> simp

/-- C5 counterexample: with pages available but the browser failing to
launch, the run completes normally with an empty result instead of aborting
fatally, contradicting the claim. -/
theorem c5_counterexample :
    scrapeYad2Browser BrowserEnv.launchFails [PageOutcome.feed cFeedGood] false geoNoMatch =
      .ok [] := rfl

/-- C7: the enrichment pass (a) leaves any listing with a truthy coordinate
pair untouched, (b) in particular never overwrites the coordinate pair of a
normalizer-produced listing whose coordinates are both set, (c) changes no
field other than `lat`/`lng` of any listing, (d) leaves a listing unchanged
when its geocoding call throws or returns no match — failures never abort
the pass — and (e) returns exactly one output listing per input listing. -/
theorem c7_enrichment_frame :
    (∀ (geo : Geocoder) (l : Listing), truthyQ l.lat = true → truthyQ l.lng = true →
      enrichListing geo l = l) ∧
    (∀ (geo : Geocoder) (item : Yad2FeedItem) (l : Listing),
      (Direct.feedItemToListing item = some l ∨ Browser.feedItemToListing item = some l) →
      l.lat ≠ none → l.lng ≠ none → enrichListing geo l = l) ∧
    (∀ (geo : Geocoder) (l : Listing), sameExceptCoords (enrichListing geo l) l) ∧
    (∀ (geo : Geocoder) (l : Listing),
      (geo (geoQuery l) = GeoResult.fail ∨ geo (geoQuery l) = GeoResult.noMatch) →
      enrichListing geo l = l) ∧
    (∀ (g : Bool) (geo : Geocoder) (ls : List Listing),
      (geocodePass g geo ls).length = ls.length) := by
  refine ⟨?_, ?_, ?_, ?_, ?_⟩
  · exact fun geo l hlat hlng => enrichListing_skips_full geo l hlat hlng
  · intro geo item l hsome hlat hlng
    rcases hsome with h | h
    · unfold Direct.feedItemToListing at h
      split at h
      · exact absurd h (by simp)
      · have hl : Direct.listingOf item = l := Option.some_inj.mp h
        subst hl
        exact enrichListing_skips_full geo _
          (opt_coord_truthy _ hlat) (opt_coord_truthy _ hlng)
    · unfold Browser.feedItemToListing at h
      split at h
      · exact absurd h (by simp)
      · have hl : Browser.listingOf item = l := Option.some_inj.mp h
        subst hl
        exact enrichListing_skips_full geo _
          (opt_coord_truthy _ hlat) (opt_coord_truthy _ hlng)
  · exact fun geo l => enrichListing_frame geo l
  · exact fun geo l h => enrichListing_failure geo l h
  · intro g geo ls
    cases g <;> simp [geocodePass]

/-- C7 witness: a listing with a full coordinate pair is untouched even by a
geocoder that would return coordinates; a coordinate-less listing is
unchanged by a throwing geocoder; the frame and length facts at concrete
inputs. -/
theorem c7_witness :
    enrichListing geoFound cListingWithCoords = cListingWithCoords ∧
    enrichListing geoFail cListingGood = cListingGood ∧
    sameExceptCoords (enrichListing geoFound cListingGood) cListingGood ∧
    (geocodePass true geoFound [cListingGood]).length = 1 :=
  ⟨c7_enrichment_frame.1 geoFound cListingWithCoords (by decide) (by decide),
   c7_enrichment_frame.2.2.2.1 geoFail cListingGood (Or.inl rfl),
   c7_enrichment_frame.2.2.1 geoFound cListingGood,
   c7_enrichment_frame.2.2.2.2 true geoFound [cListingGood]⟩

theorem waitForSolve_cases (signal : Nat → Bool) :
    ∀ (fuel start : Nat), waitForSolve signal fuel start = CaptchaState.solved ∨
      waitForSolve signal fuel start = CaptchaState.timedOut := by
  intro fuel
  induction fuel with
  | zero => intro start; exact Or.inr rfl
  | succ f ih =>
    intro start
    unfold waitForSolve
    by_cases hs : signal start
    · rw [hs]; simpa using ih (start + 1)
    · rw [Bool.not_eq_true] at hs
      rw [hs]; simp

/-- C6 (modelled from the spec, §4.2; no captcha code ships under `src/`):
the gate starts at `None`; a challenge signal yields the trace `None →
Detected → WaitingForSolve → final`; a signal clearing at some poll within
the window resolves to `Solved` and the page fetch proceeds; a signal
persisting through the whole window resolves to `TimedOut` and the fetch
fails fatally; `TimedOut` is the only fatal state; and every traversed
transition is one of the four allowed ones. -/
theorem c6_captcha_gate :
    (∀ (signal : Nat → Bool) (maxPolls : Nat),
      (captchaTrace signal maxPolls).head? = some CaptchaState.challengeNone) ∧
    (∀ (signal : Nat → Bool) (maxPolls : Nat), signal 0 = true →
      captchaTrace signal maxPolls =
        [CaptchaState.challengeNone, CaptchaState.detected,
          CaptchaState.waitingForSolve, captchaGateFinal signal maxPolls]) ∧
    (∀ (signal : Nat → Bool) (maxPolls k : Nat) (payload : PageOutcome),
      signal 0 = true → 1 ≤ k → k ≤ maxPolls → signal k = false →
      captchaGateFinal signal maxPolls = CaptchaState.solved ∧
        fetchPageWithGate signal maxPolls payload = .ok payload) ∧
    (∀ (signal : Nat → Bool) (maxPolls : Nat) (payload : PageOutcome),
      signal 0 = true → (∀ t, 1 ≤ t → t ≤ maxPolls → signal t = true) →
      captchaGateFinal signal maxPolls = CaptchaState.timedOut ∧
        fetchPageWithGate signal maxPolls payload =
          .error "captcha challenge unresolved within bound") ∧
    (∀ s : CaptchaState, s.isFatal = true ↔ s = CaptchaState.timedOut) ∧
    (∀ (signal : Nat → Bool) (maxPolls : Nat),
      List.Chain' (fun a b => allowedTransition a b = true)
        (captchaTrace signal maxPolls)) := by
  refine ⟨?_, ?_, ?_, ?_, ?_, ?_⟩
  · intro signal maxPolls
    unfold captchaTrace
    by_cases h : signal 0 <;> simp [h]
  · intro signal maxPolls h
    simp [captchaTrace, captchaGateFinal, h]
  · intro signal maxPolls k payload h0 h1 h2 h3
    have hfin : captchaGateFinal signal maxPolls = CaptchaState.solved := by
      unfold captchaGateFinal
      rw [h0]
      simp only [if_true]
      exact waitForSolve_solved signal maxPolls 1 k h1 (by omega) h3
    refine ⟨hfin, ?_⟩
    unfold fetchPageWithGate
    rw [hfin]
    rfl
  · intro signal maxPolls payload h0 hall
    have hfin : captchaGateFinal signal maxPolls = CaptchaState.timedOut := by
      unfold captchaGateFinal
      rw [h0]
      simp only [if_true]
      exact waitForSolve_timedOut signal maxPolls 1
        (fun t ht1 ht2 => hall t ht1 (by omega))
    refine ⟨hfin, ?_⟩
    unfold fetchPageWithGate
    rw [hfin]
    rfl
  · intro s
    cases s <;> simp [CaptchaState.isFatal]
  · intro signal maxPolls
    unfold captchaTrace
    by_cases h : signal 0
    · rw [if_pos h]
      rcases waitForSolve_cases signal maxPolls 1 with hc | hc <;>
        simp [List.chain'_cons, hc, allowedTransition]
    · rw [if_neg h]
      simp

/-- C6 witness: a challenge that clears at the first poll ends `Solved` and
lets the page through; a persistent challenge ends `TimedOut` and aborts
fatally; the no-challenge trace stays at `None`. -/
theorem c6_witness :
    (captchaGateFinal (fun t => t == 0) 60 = CaptchaState.solved ∧
      fetchPageWithGate (fun t => t == 0) 60 PageOutcome.noPayload =
        .ok PageOutcome.noPayload) ∧
    (captchaGateFinal (fun _ => true) 60 = CaptchaState.timedOut ∧
      fetchPageWithGate (fun _ => true) 60 PageOutcome.noPayload =
        .error "captcha challenge unresolved within bound") ∧
    (captchaTrace (fun _ => false) 60).head? = some CaptchaState.challengeNone :=
  ⟨c6_captcha_gate.2.2.1 (fun t => t == 0) 60 1 PageOutcome.noPayload rfl
      (by decide) (by decide) rfl,
   c6_captcha_gate.2.2.2.1 (fun _ => true) 60 PageOutcome.noPayload rfl
      (fun t _ _ => rfl),
   c6_captcha_gate.1 (fun _ => false) 60⟩

/-- C8, amended: the page-state extractor returns the `state.data` of the
first dehydrated query whose serialized key contains
`"realestate-rent-feed"`, and returns a null/absent payload — without
raising — when the hydration marker, the closing script boundary,
well-formed JSON, the queries array, or a matching query is absent,
PROVIDED no `null` entry precedes the match in the queries array: a `null`
entry makes the direct-HTTP extractor throw a `TypeError` (caught only by
the per-page handler), while the browser extractor's internal `try`/`catch`
turns the same situation into a null payload. -/
theorem c8_extractor_behavior :
    (∀ (parse : String → Option JsVal) (html : String),
      strIndexOf html nextDataMarker = none →
      Direct.extractNextData parse html = JsVal.null) ∧
    (∀ (parse : String → Option JsVal) (html : String) (i : Nat),
      strIndexOf html nextDataMarker = some i →
      strIndexOfFrom html "</script>" (i + nextDataMarker.length) = none →
      Direct.extractNextData parse html = JsVal.null) ∧
    (∀ (parse : String → Option JsVal) (html : String) (i j : Nat),
      strIndexOf html nextDataMarker = some i →
      strIndexOfFrom html "</script>" (i + nextDataMarker.length) = some j →
      parse (jsSubstring html (i + nextDataMarker.length) j) = none →
      Direct.extractNextData parse html = JsVal.null) ∧
    (∀ (parse : String → Option JsVal) (html : String) (i j : Nat) (v : JsVal),
      strIndexOf html nextDataMarker = some i →
      strIndexOfFrom html "</script>" (i + nextDataMarker.length) = some j →
      parse (jsSubstring html (i + nextDataMarker.length) j) = some v →
      Direct.extractNextData parse html = v) ∧
    (∀ nd : JsVal, (∀ xs : List JsVal, queriesOf nd ≠ JsVal.arr xs) →
      Direct.extractFeedFromNextData nd = .ok JsVal.null) ∧
    (∀ (nd : JsVal) (qs : List JsVal), queriesOf nd = JsVal.arr qs →
      (∀ q ∈ qs, safeEntry q ∧ queryMatches q = false) →
      Direct.extractFeedFromNextData nd = .ok JsVal.null) ∧
    (∀ (nd : JsVal) (qs1 : List JsVal) (q : JsVal) (qs2 : List JsVal),
      queriesOf nd = JsVal.arr (qs1 ++ q :: qs2) →
      (∀ q' ∈ qs1, safeEntry q' ∧ queryMatches q' = false) →
      safeEntry q → queryMatches q = true →
      Direct.extractFeedFromNextData nd = .ok (qdot (qdot q "state") "data")) ∧
    (∀ (parse : String → Option JsVal) (txt : String) (nd : JsVal) (qs : List JsVal),
      parse txt = some nd → queriesOf nd = JsVal.arr qs →
      Browser.findFeedQuery qs = .error () →
      Browser.extractFeedFromPage parse (some txt) = JsVal.null) := by
  refine ⟨?_, ?_, ?_, ?_, ?_, ?_, ?_, ?_⟩
  · intro parse html h
    unfold Direct.extractNextData
    rw [h]
  · intro parse html i h1 h2
    unfold Direct.extractNextData
    rw [h1]
    dsimp only
    rw [h2]
  · intro parse html i j h1 h2 h3
    unfold Direct.extractNextData
    rw [h1]
    dsimp only
    rw [h2]
    dsimp only
    rw [h3]
  · intro parse html i j v h1 h2 h3
    unfold Direct.extractNextData
    rw [h1]
    dsimp only
    rw [h2]
    dsimp only
    rw [h3]
  · intro nd hne
    unfold Direct.extractFeedFromNextData
    rcases hq : queriesOf nd with _ | _ | b | q | s | xs | fs
    · rfl
    · rfl
    · rfl
    · rfl
    · rfl
    · exact absurd hq (hne xs)
    · rfl
  · intro nd qs hq hall
    unfold Direct.extractFeedFromNextData
    rw [hq]
    exact Direct.findFeedQuery_no_match qs hall
  · intro nd qs1 q qs2 hq h1 hsafe hm
    unfold Direct.extractFeedFromNextData
    rw [hq]
    exact Direct.findFeedQuery_first qs1 q qs2 h1 hsafe hm
  · intro parse txt nd qs hp hq herr
    unfold Browser.extractFeedFromPage
    dsimp only
    rw [hp]
    dsimp only
    rw [hq]
    dsimp only
    rw [herr]

/-- C8 witness: a marker-less page yields `null`; a well-formed page whose
payload parses yields the parsed value; the good hydration document yields
the matching query's feed data. -/
theorem c8_witness :
    Direct.extractNextData cParse "no hydration marker here" = JsVal.null ∧
    Direct.extractNextData cParse cHtmlGood = JsVal.null ∧
    Direct.extractFeedFromNextData cNextDataGood = .ok (JsVal.str "FEED") :=
  ⟨c8_extractor_behavior.1 cParse "no hydration marker here" rfl,
   c8_extractor_behavior.2.2.2.1 cParse cHtmlGood 0 (nextDataMarker.length + 4)
     JsVal.null rfl rfl rfl,
   c8_extractor_behavior.2.2.2.2.2.2.1 cNextDataGood [] cQueryGood [] rfl
     (fun q' hq' => absurd hq' (List.not_mem_nil q')) trivial rfl⟩

/-- C8 counterexample: a present, well-formed hydration payload whose
queries array holds a `null` entry — a case where the claim demands a null
result without raising — makes the direct-HTTP extractor raise a
`TypeError` instead. -/
theorem c8_counterexample :
    queriesOf cNextDataNullQuery = JsVal.arr [JsVal.null] ∧
      Direct.extractFeedFromNextData cNextDataNullQuery = .error () :=
  ⟨rfl, rfl⟩

theorem processItem_seen_other (norm : Yad2FeedItem → Option Listing)
    (st : ScrapeState) (x : Yad2FeedItem) (t : String)
    (hseen : t ∉ st.seen) (hx : x.token ≠ some t) :
    t ∉ (processItem norm st x).seen := by
  unfold processItem
  rcases htok : x.token with _ | tok
  · exact hseen
  · dsimp only
    split
    · exact hseen
    · split
      · exact hseen
      · have htne : tok ≠ t := fun hc => hx (by rw [htok, hc])
        rcases norm x with _ | l' <;>
          exact fun hmem => (List.mem_cons.mp hmem).elim
            (fun h1 => absurd h1.symm htne) (fun h2 => hseen h2)

theorem processItem_listings_other (norm : Yad2FeedItem → Option Listing)
    (hn : ∀ item l, norm item = some l → l.source_id = item.token)
    (st : ScrapeState) (x : Yad2FeedItem) (t : String)
    (hnone : ∀ l ∈ st.listings, l.source_id ≠ some t) (hx : x.token ≠ some t) :
    ∀ l ∈ (processItem norm st x).listings, l.source_id ≠ some t := by
  unfold processItem
  rcases htok : x.token with _ | tok
  · exact hnone
  · dsimp only
    split
    · exact hnone
    · split
      · exact hnone
      · rcases hno : norm x with _ | l'
        · exact hnone
        · intro l hl
          rcases List.mem_append.mp hl with hl | hl
          · exact hnone l hl
          · rw [List.mem_singleton] at hl
            rw [hl, hn x l' hno]
            exact hx

theorem processItems_first_fails (norm : Yad2FeedItem → Option Listing)
    (hn : ∀ item l, norm item = some l → l.source_id = item.token)
    (t : String) (items : List Yad2FeedItem) (st : ScrapeState) (i : Yad2FeedItem)
    (ht : t ≠ "") (hseen : t ∉ st.seen)
    (hnone : ∀ l ∈ st.listings, l.source_id ≠ some t)
    (hfirst : firstTokenItem t items = some i) (hnorm : norm i = none) :
    ∀ l ∈ (processItems norm st items).listings, l.source_id ≠ some t := by
  induction items generalizing st with
  | nil => simp [firstTokenItem] at hfirst
  | cons x xs ih =>
    rw [firstTokenItem, List.find?_cons] at hfirst
    by_cases hx : x.token = some t
    · have hbx : (x.token == some t) = true := by simpa using hx
      simp only [hbx] at hfirst
      have hxi : x = i := by simpa using hfirst
      subst hxi
      have hcont : st.seen.contains t = false :=
        Bool.eq_false_iff.mpr (fun hc => hseen (List.mem_of_elem_eq_true hc))
      have hstep : processItem norm st x =
          { seen := t :: st.seen, listings := st.listings } := by
        simp [processItem, hx, ht, hcont, hnorm, hseen]
      unfold processItems
      rw [List.foldl_cons, hstep]
      exact processItems_blocked_token norm hn t xs _
        (List.mem_cons_self _ _) hnone
    · have hbx : (x.token == some t) = false := by simpa using hx
      simp only [hbx] at hfirst
      exact ih _ (processItem_seen_other norm st x t hseen hx)
        (processItem_listings_other norm hn st x t hnone hx) hfirst

theorem countTok_geocodePass (g : Bool) (geo : Geocoder) (t : String)
    (ls : List Listing) : countTok t (geocodePass g geo ls) = countTok t ls := by
  cases g
  · simp [geocodePass]
  · unfold geocodePass countTok
    simp only [if_true]
    rw [List.countP_map]
    apply List.countP_congr
    intro l _
    have h := (enrichListing_frame geo l).2.2.1
    simp [Function.comp, h]

/-- C2, amended: within one run, AT MOST one listing is produced per
distinct token (in both variants, geocoding pass included) — exactly one
only when the first item carrying the token, in the fixed iteration order
(page order, then bucket order private, agency, yad1, platinum, trio,
booster, leadingBroker, kingOfTheHar, then item order), passes validation,
in which case the produced listing is that first occurrence's. -/
theorem c2_dedup_at_most_one_first_wins :
    (∀ (pages : List PageOutcome) (g : Bool) (geo : Geocoder) (t : String),
      countTok t (scrapeYad2Direct pages g geo) ≤ 1) ∧
    (∀ (pages : List PageOutcome) (g : Bool) (geo : Geocoder) (t : String)
        (ls : List Listing),
      scrapeYad2Browser BrowserEnv.ok pages g geo = .ok ls →
      countTok t ls ≤ 1) ∧
    (∀ (pages : List PageOutcome) (t : String) (i : Yad2FeedItem) (l : Listing),
      t ≠ "" → firstTokenItem t (pagesItems pages) = some i →
      Direct.feedItemToListing i = some l →
      l ∈ (runPages Direct.feedItemToListing {} pages).listings) ∧
    (∀ (pages : List PageOutcome) (t : String) (i : Yad2FeedItem) (l : Listing),
      t ≠ "" → firstTokenItem t (pagesItems pages) = some i →
      Browser.feedItemToListing i = some l →
      l ∈ (runPages Browser.feedItemToListing {} pages).listings) := by
  refine ⟨?_, ?_, ?_, ?_⟩
  · intro pages g geo t
    unfold scrapeYad2Direct
    rw [countTok_geocodePass]
    have h1 : TokInv (runPages Direct.feedItemToListing {} pages) := by
      rw [runPages_eq_processItems]
      exact processItems_tokinv _ direct_source_id_eq_token _ _ tokInv_empty
    exact countTok_le_one_of_nodup t _ h1.2
  · intro pages g geo t ls hok
    unfold scrapeYad2Browser at hok
    have hls : geocodePass g geo
        (runPages Browser.feedItemToListing {} pages).listings = ls :=
      Except.ok.inj hok
    rw [← hls, countTok_geocodePass]
    have h1 : TokInv (runPages Browser.feedItemToListing {} pages) := by
      rw [runPages_eq_processItems]
      exact processItems_tokinv _ browser_source_id_eq_token _ _ tokInv_empty
    exact countTok_le_one_of_nodup t _ h1.2
  · intro pages t i l ht hfirst hnorm
    rw [runPages_eq_processItems]
    exact processItems_first_wins _ t _ {} i l ht (List.not_mem_nil t) hfirst hnorm
  · intro pages t i l ht hfirst hnorm
    rw [runPages_eq_processItems]
    exact processItems_first_wins _ t _ {} i l ht (List.not_mem_nil t) hfirst hnorm

/-- C2 witness: with token `t1` in both `private` and `agency`, the first
occurrence's listing is produced and at most one listing carries `t1`. -/
theorem c2_witness :
    cListingGood ∈ (runPages Direct.feedItemToListing {}
      [PageOutcome.feed cFeedGoodTwice]).listings ∧
    countTok "t1" (scrapeYad2Direct [PageOutcome.feed cFeedGoodTwice] false geoNoMatch) ≤ 1 ∧
    countTok "t1" [cListingGoodB] ≤ 1 :=
  ⟨c2_dedup_at_most_one_first_wins.2.2.1 [PageOutcome.feed cFeedGoodTwice]
      "t1" cItemGood cListingGood (by decide) rfl rfl,
   c2_dedup_at_most_one_first_wins.1 [PageOutcome.feed cFeedGoodTwice] false geoNoMatch "t1",
   c2_dedup_at_most_one_first_wins.2.1 [PageOutcome.feed cFeedGoodTwice] false
      geoNoMatch "t1" [cListingGoodB] rfl⟩

/-- C2 counterexample: a run whose only item carries token `t1` but fails
validation produces ZERO listings — "exactly one NormalizedListing per
distinct token" is false as stated. -/
theorem c2_counterexample :
    cFeedBadOnly.priv = some [cItemBad] ∧ cItemBad.token = some "t1" ∧
      scrapeYad2Direct [PageOutcome.feed cFeedBadOnly] false geoNoMatch = [] :=
  ⟨rfl, rfl, rfl⟩

/-- C9: if the first item (in page order, then bucket order, then item
order) carrying token `t` fails validation, the run produces no listing at
all for `t` — the token is added to the seen set before validation, so
every later item carrying `t` is discarded without normalization, even one
that would have passed. -/
theorem c9_failed_first_occurrence_blocks_token :
    (∀ (pages : List PageOutcome) (g : Bool) (geo : Geocoder) (t : String)
        (i : Yad2FeedItem),
      t ≠ "" → firstTokenItem t (pagesItems pages) = some i →
      Direct.feedItemToListing i = none →
      countTok t (scrapeYad2Direct pages g geo) = 0) ∧
    (∀ (pages : List PageOutcome) (g : Bool) (geo : Geocoder) (t : String)
        (i : Yad2FeedItem) (ls : List Listing),
      t ≠ "" → firstTokenItem t (pagesItems pages) = some i →
      Browser.feedItemToListing i = none →
      scrapeYad2Browser BrowserEnv.ok pages g geo = .ok ls →
      countTok t ls = 0) := by
  constructor
  · intro pages g geo t i ht hfirst hnorm
    unfold scrapeYad2Direct
    rw [countTok_geocodePass]
    rw [countTok, List.countP_eq_zero]
    intro l hl
    have h := processItems_first_fails Direct.feedItemToListing
      direct_source_id_eq_token t (pagesItems pages) {} i ht
      (List.not_mem_nil t) (fun l hl => absurd hl (List.not_mem_nil l))
      hfirst hnorm l (by rwa [← runPages_eq_processItems])
    simpa using h
  · intro pages g geo t i ls ht hfirst hnorm hok
    unfold scrapeYad2Browser at hok
    have hls : geocodePass g geo
        (runPages Browser.feedItemToListing {} pages).listings = ls :=
      Except.ok.inj hok
    rw [← hls, countTok_geocodePass]
    rw [countTok, List.countP_eq_zero]
    intro l hl
    have h := processItems_first_fails Browser.feedItemToListing
      browser_source_id_eq_token t (pagesItems pages) {} i ht
      (List.not_mem_nil t) (fun l hl => absurd hl (List.not_mem_nil l))
      hfirst hnorm l (by rwa [← runPages_eq_processItems])
    simpa using h

/-- C9 witness: token `t1` appears first as the invalid `cItemBad` (in
`private`) and later as the fully valid `cItemGood` (in `agency`); the run
produces zero listings for `t1` even though the later item passes
validation on its own. -/
theorem c9_witness :
    Direct.feedItemToListing cItemGood = some cListingGood ∧
    cFeedBadThenGood.agency = some [cItemGood] ∧
    countTok "t1" (scrapeYad2Direct [PageOutcome.feed cFeedBadThenGood]
      false geoNoMatch) = 0 :=
  ⟨rfl, rfl,
   c9_failed_first_occurrence_blocks_token.1 [PageOutcome.feed cFeedBadThenGood]
     false geoNoMatch "t1" cItemBad (by decide) rfl rfl⟩
